import Mathlib

/-!
# terraform-provider-mesoskafka: the REST client (`mesoskafka/client.go`)

A shallow embedding of the client of the Kafka-on-Mesos scheduler API and the
properties of its query-string encoding, its rebalance barrier and its three
broker workflows.

Conventions of the embedding

* A Go `string` is a sequence of bytes: `GoString := List UInt8`.  Source
  literals are written `str "..."` (their UTF-8 bytes).
* Go `int` fields are `Int`; no arithmetic is done on them by the client, so
  no wrap-around is involved.  `strconv.Atoi` checks the 64-bit range itself.
* A `float64` is its three IEEE-754 binary64 fields.
* Library routines the client calls (`url.Values`, `url.QueryEscape`,
  `strconv.Itoa`, `strconv.Atoi`, `strconv.FormatFloat`) are embedded after
  their Go definitions; `json.Unmarshal`, URL resolution and the HTTP
  transport are fields of an environment record `Env`.
* Effects are explicit: every operation takes and returns a state holding the
  remote side and the trace of observable events (requests, prints, sleeps).
  A Go run-time panic is an outcome of its own, distinct from a returned error.
* The only loop that may run forever, the poll loop of `ApiBrokerRebalance`,
  takes a bound on the number of polls; running out of it yields `none`.
-/

set_option linter.dupNamespace false
set_option maxRecDepth 8000
set_option exponentiation.threshold 2048

namespace Mesoskafka

/-! ## Go strings -/

/-- A Go string: a finite sequence of bytes. -/
abbrev GoString := List UInt8

/-- The bytes of a source literal. -/
def str (s : String) : GoString := s.toUTF8.data.toList

/-! ## `net/url`: query escaping and `url.Values` -/

/-- The function `shouldEscape(c, encodeQueryComponent)` of `net/url`: only
ASCII letters, digits and `-`, `_`, `.`, `~` are left as they are. -/
def shouldEscape (c : UInt8) : Bool :=
  if (97 ≤ c ∧ c ≤ 122) ∨ (65 ≤ c ∧ c ≤ 90) ∨ (48 ≤ c ∧ c ≤ 57) then false
  else if c = 45 ∨ c = 95 ∨ c = 46 ∨ c = 126 then false
  else true

/-- The table `upperhex` ("0123456789ABCDEF") of `net/url`, indexed by a nibble. -/
def upperhex (n : Nat) : UInt8 :=
  if n < 10 then UInt8.ofNat (48 + n) else UInt8.ofNat (55 + n)

/-- The function `url.QueryEscape`: a space becomes `+`, every other byte that
`shouldEscape` becomes `%XX`, the rest is copied. -/
def QueryEscape : GoString → GoString
  | [] => []
  | c :: cs =>
    if shouldEscape c then
      if c = 32 then 43 :: QueryEscape cs
      else 37 :: upperhex (c.toNat / 16) :: upperhex (c.toNat % 16) :: QueryEscape cs
    else c :: QueryEscape cs

/-- The type `url.Values` (`map[string][]string`) as an association list with
one entry per key. -/
abbrev Values := List (GoString × List GoString)

/-- The method `Values.Add`: append the value to the values of the key. -/
def Values.Add : Values → GoString → GoString → Values
  | [], key, value => [(key, [value])]
  | (k, vs) :: rest, key, value =>
    if k = key then (k, vs ++ [value]) :: rest
    else (k, vs) :: Values.Add rest key value

/-- Byte-wise lexicographic order of Go strings (`<` on `string`). -/
def strLt : GoString → GoString → Bool
  | [], [] => false
  | [], _ :: _ => true
  | _ :: _, [] => false
  | a :: as, b :: bs => if a < b then true else if b < a then false else strLt as bs

/-- Insert an entry into a list of entries sorted by key. -/
def insertByKey (e : GoString × List GoString) : Values → Values
  | [] => [e]
  | f :: rest => if strLt f.1 e.1 then f :: insertByKey e rest else e :: f :: rest

/-- The entries of the map in increasing key order (`slices.Sort(keys)`). -/
def sortByKey : Values → Values
  | [] => []
  | e :: rest => insertByKey e (sortByKey rest)

/-- Join pieces with `&` (the `buf.Len() > 0` test of `Values.Encode`). -/
def joinAmp : List GoString → GoString
  | [] => []
  | [p] => p
  | p :: q :: rest => p ++ 38 :: joinAmp (q :: rest)

/-- One `key=value` piece of the encoded form, both sides escaped. -/
def encodePiece (k v : GoString) : GoString :=
  QueryEscape k ++ 61 :: QueryEscape v

/-- The method `Values.Encode`: keys in sorted order, for each key its values
in insertion order, as `key=value` pieces joined by `&`. -/
def Values.Encode (v : Values) : GoString :=
  joinAmp ((sortByKey v).flatMap fun e => e.2.map fun x => encodePiece e.1 x)

/-! ## `strconv`: integers -/

/-- Decimal digits of a natural number, most significant first, in front of
`acc`; `fuel` bounds the number of digits. -/
def natDigits : Nat → Nat → GoString → GoString
  | 0, _, acc => acc
  | fuel + 1, n, acc =>
    if n < 10 then UInt8.ofNat (48 + n) :: acc
    else natDigits fuel (n / 10) (UInt8.ofNat (48 + n % 10) :: acc)

/-- Decimal form of a natural number. -/
def formatNat (n : Nat) : GoString := natDigits (n + 1) n []

/-- The function `strconv.Itoa` (also `%d` of `fmt.Sprintf`): decimal form,
with a leading `-` for a negative number. -/
def Itoa (i : Int) : GoString :=
  if i < 0 then 45 :: formatNat i.natAbs else formatNat i.natAbs

/-! ## `strconv`: floating point -/

/-- A `float64` as its IEEE-754 binary64 fields: sign bit, biased exponent and
fraction.  Exponent 2047 is an infinity (fraction 0) or a NaN; exponent 0 is a
zero (fraction 0) or a subnormal. -/
structure Float64 where
  sign : Bool
  exp : Fin 2048
  mant : Fin 4503599627370496
  deriving DecidableEq

/-- The Go comparison `f != 0`: false exactly on the two zeros, true on
every other value, NaN included. -/
def Float64.neZero (f : Float64) : Bool :=
  !(f.exp.val = 0 ∧ f.mant.val = 0)

/-- The `float64` 1.5: positive, unbiased exponent 0, fraction one half. -/
def onePointFive : Float64 := ⟨false, 1023, 2251799813685248⟩

/-- Six decimal digits of a number below `10^6`, zero padded. -/
def sixDigits (n : Nat) : GoString :=
  [UInt8.ofNat (48 + n / 100000 % 10), UInt8.ofNat (48 + n / 10000 % 10),
   UInt8.ofNat (48 + n / 1000 % 10), UInt8.ofNat (48 + n / 100 % 10),
   UInt8.ofNat (48 + n / 10 % 10), UInt8.ofNat (48 + n % 10)]

/-- The value `|f| * 10^6` of a finite float rounded to an integer, ties to
even: what `decimal.Round` leaves of the exact decimal expansion in
`strconv`'s `bigFtoa` when six digits after the point are asked for. -/
def scaledMicros (f : Float64) : Nat :=
  let m := if f.exp.val = 0 then f.mant.val else f.mant.val + 4503599627370496
  let e := if f.exp.val = 0 then 1 else f.exp.val
  let num := m * 1000000 * 2 ^ (e - 1075)
  let den := 2 ^ (1075 - e)
  let q := num / den
  let r := num % den
  if den < 2 * r ∨ (2 * r = den ∧ q % 2 = 1) then q + 1 else q

/-- The call `strconv.FormatFloat(f, 'f', 6, 64)`: `NaN`, `+Inf`, `-Inf`, or
sign, integer part, `.` and exactly six fraction digits. -/
def FormatFloat (f : Float64) : GoString :=
  if f.exp.val = 2047 then
    if f.mant.val ≠ 0 then str "NaN" else if f.sign then str "-Inf" else str "+Inf"
  else
    let n := scaledMicros f
    (if f.sign then [45] else []) ++ formatNat (n / 1000000) ++ 46 :: sixDigits (n % 1000000)

/-! ## The data model of `client.go` -/

/-- The struct `Failover`. -/
structure Failover where
  Delay : GoString
  MaxDelay : GoString
  MaxTries : Int
  deriving DecidableEq

/-- The struct `Broker`. -/
structure Broker where
  ID : GoString
  Active : Bool
  Memory : Int
  Heap : Int
  Cpus : Float64
  Log4jOptions : GoString
  Constraints : GoString
  JVMOptions : GoString
  Options : GoString
  Failover : Failover
  deriving DecidableEq

/-- The struct `Brokers`. -/
structure Brokers where
  Brokers : List Broker
  deriving DecidableEq

/-- The struct `MutateStatus`. -/
structure MutateStatus where
  Status : GoString
  deriving DecidableEq

/-- The struct `RebalanceStatus`. -/
structure RebalanceStatus where
  Status : GoString
  StatusCode : Int
  Message : GoString
  deriving DecidableEq

/-! ## `queryStringFromBroker` -/

/-- The parameter map built by `queryStringFromBroker` before it is encoded
(`client.go`, lines 162-195). -/
def brokerParams (broker : Broker) : Values :=
  let params : Values := []
  let params := Values.Add params (str "broker") broker.ID
  let params := if broker.Cpus.neZero then
    Values.Add params (str "cpus") (FormatFloat broker.Cpus) else params
  let params := if broker.Memory ≠ 0 then
    Values.Add params (str "mem") (Itoa broker.Memory) else params
  let params := if broker.Heap ≠ 0 then
    Values.Add params (str "heap") (Itoa broker.Heap) else params
  let params := Values.Add params (str "jvmOptions") broker.JVMOptions
  let params := Values.Add params (str "log4jOptions") broker.Log4jOptions
  let params := Values.Add params (str "options") broker.Options
  let params := Values.Add params (str "constraints") broker.Constraints
  let params := if broker.Failover.Delay ≠ [] then
    Values.Add params (str "failoverDelay") broker.Failover.Delay else params
  let params := if broker.Failover.MaxDelay ≠ [] then
    Values.Add params (str "failoverMaxDelay") broker.Failover.MaxDelay else params
  let params := if broker.Failover.MaxTries ≠ 0 then
    Values.Add params (str "failoverMaxTries") (Itoa broker.Failover.MaxTries) else params
  params

/-- The function `queryStringFromBroker`. -/
def queryStringFromBroker (broker : Broker) : GoString :=
  Values.Encode (brokerParams broker)

/-! ## Errors, panics and `strconv.Atoi` -/

/-- The two causes a `*strconv.NumError` can carry: `ErrSyntax` and `ErrRange`. -/
inductive NumErrCause
  | badSyntax
  | outOfRange
  deriving DecidableEq

/-- The Go `error` values the client can hold. -/
inductive GoError
  /-- A value built by `fmt.Errorf`, with its message. -/
  | errorf (text : GoString)
  /-- A `*strconv.NumError` with its `Func`, `Num` and `Err` fields. -/
  | numError (fn : GoString) (num : GoString) (cause : NumErrCause)
  /-- An error returned by `json.Unmarshal`. -/
  | unmarshal (text : GoString)
  deriving DecidableEq

/-- The run-time panics the client can raise. -/
inductive GoPanic
  /-- The call `panic(err)` of `getFullUrl`, on an endpoint that does not parse. -/
  | urlParse (endpoint : GoString)
  /-- A field read through a nil pointer. -/
  | nilDereference
  deriving DecidableEq

/-- The digit loop of `strconv.ParseUint(s, 10, 64)`, with `n` the value read
so far: a byte that is not a digit is a syntax error, a value that leaves
64 bits is a range error. -/
def parseUintLoop : GoString → Nat → Except NumErrCause Nat
  | [], n => .ok n
  | c :: cs, n =>
    if 48 ≤ c ∧ c ≤ 57 then
      let d := c.toNat - 48
      if n ≥ 18446744073709551615 / 10 + 1 then .error .outOfRange
      else
        let n := n * 10
        let n1 := (n + d) % 18446744073709551616
        if n1 < n ∨ n1 > 18446744073709551615 then .error .outOfRange
        else parseUintLoop cs n1
    else .error .badSyntax

/-- The call `strconv.ParseUint(s, 10, 64)`. -/
def ParseUint (s : GoString) : Except NumErrCause Nat :=
  if s = [] then .error .badSyntax else parseUintLoop s 0

/-- The call `strconv.ParseInt(s, 10, 0)` on a 64-bit platform: the cause of
the error, or the value. -/
def ParseInt (s : GoString) : Except NumErrCause Int :=
  match s with
  | [] => .error .badSyntax
  | c :: cs =>
    let neg := c = 45
    let s1 := if c = 43 ∨ c = 45 then cs else c :: cs
    match ParseUint s1 with
    | .error .badSyntax => .error .badSyntax
    | r =>
      let un : Nat := match r with
        | .ok n => n
        | .error _ => 18446744073709551615
      if ¬ neg ∧ un ≥ 9223372036854775808 then .error .outOfRange
      else if neg ∧ un > 9223372036854775808 then .error .outOfRange
      else .ok (if neg then - (un : Int) else (un : Int))

/-- The digit loop of the fast path of `strconv.Atoi`. -/
def atoiFastLoop : GoString → Nat → Option Nat
  | [], n => some n
  | ch :: cs, n =>
    let ch := ch - 48
    if ch > 9 then none else atoiFastLoop cs (n * 10 + ch.toNat)

/-- The function `strconv.Atoi` on a 64-bit platform: a fast path for strings
of fewer than 19 bytes, `ParseInt(s, 10, 0)` for the rest. -/
def Atoi (s : GoString) : Except GoError Int :=
  if 0 < s.length ∧ s.length < 19 then
    match s with
    | [] => .error (.numError (str "Atoi") s .badSyntax)
    | c :: cs =>
      let s1 := if c = 45 ∨ c = 43 then cs else c :: cs
      if (c = 45 ∨ c = 43) ∧ s1.length < 1 then .error (.numError (str "Atoi") s .badSyntax)
      else
        match atoiFastLoop s1 0 with
        | none => .error (.numError (str "Atoi") s .badSyntax)
        | some n => .ok (if c = 45 then - (n : Int) else (n : Int))
  else
    match ParseInt s with
    | .ok i => .ok i
    | .error cause => .error (.numError (str "Atoi") s cause)

/-! ## The environment of the client -/

/-- The part of an `*http.Response` the client reads. -/
structure HttpResponse where
  StatusCode : Int
  Status : GoString
  Body : GoString
  deriving DecidableEq

/-- What the client code does not define itself.  `σ` is the state of the
remote side.

* `resolve` is `c.url.Parse(apiEndpoint)` followed by `String()`; `none` is a
  parse error.
* `httpGet` is `c.httpClient.Get`; the error case carries the message of the
  transport error.
* `elapse` is what happens to the remote side while the client sleeps for the
  given number of nanoseconds.
* the three `unmarshal` fields are `json.Unmarshal` into a `Brokers`, a
  `MutateStatus` and a `RebalanceStatus`. -/
structure Env (σ : Type) where
  resolve : GoString → Option GoString
  httpGet : σ → GoString → σ × Except GoString HttpResponse
  elapse : σ → Nat → σ
  unmarshalBrokers : GoString → Except GoError Brokers
  unmarshalMutateStatus : GoString → Except GoError MutateStatus
  unmarshalRebalanceStatus : GoString → Except GoError RebalanceStatus

/-- An observable action of the client. -/
inductive Event
  /-- A GET request handed to the HTTP client, named by its API endpoint. -/
  | get (endpoint : GoString)
  /-- A line written by `fmt.Println`. -/
  | println (line : GoString)
  /-- A call of `time.Sleep` with its duration in nanoseconds. -/
  | sleep (nanos : Nat)
  deriving DecidableEq

/-- The state threaded through the client: the remote side and the events so far. -/
structure St (σ : Type) where
  world : σ
  trace : List Event

/-- How a call ends: with a value, with a returned `error`, or in a panic. -/
inductive Outcome (α : Type)
  | ok (a : α)
  | err (e : GoError)
  | panic (p : GoPanic)
  deriving DecidableEq

/-- The constant `time.Second`, in nanoseconds. -/
def Second : Nat := 1000000000

/-! ## Transport (`client.go`, lines 38-105) -/

/-- The function `checkSuccessfullStatusCode`: the message of the error for a
status outside 200..299, `none` for `nil`. -/
def checkSuccessfullStatusCode (resp : HttpResponse) : Option GoString :=
  if resp.StatusCode < 200 ∨ resp.StatusCode ≥ 300 then
    some (str "Returned HTTP status: " ++ resp.Status ++
      str " \nReturned HTTP body: " ++ resp.Body)
  else none

/-- The method `getJson`. -/
def getJson {σ : Type} (env : Env σ) (apiEndpoint : GoString) (s : St σ) :
    Outcome GoString × St σ :=
  match env.resolve apiEndpoint with
  | none => (.panic (.urlParse apiEndpoint), s)
  | some fullUrl =>
    let r := env.httpGet s.world fullUrl
    let s1 : St σ := ⟨r.1, s.trace ++ [Event.get apiEndpoint]⟩
    match r.2 with
    | .error e => (.err (.errorf (apiEndpoint ++ str ": " ++ e)), s1)
    | .ok resp =>
      match checkSuccessfullStatusCode resp with
      | some statusCodeErr => (.err (.errorf (apiEndpoint ++ str ": " ++ statusCodeErr)), s1)
      | none => (.ok resp.Body, s1)

/-- The common shape of the primitive operations: `getJson`, then
`json.Unmarshal` of the body. -/
def getAndDecode {σ α : Type} (env : Env σ) (unmarshal : GoString → Except GoError α)
    (url : GoString) (s : St σ) : Outcome α × St σ :=
  match getJson env url s with
  | (.panic p, s1) => (.panic p, s1)
  | (.err e, s1) => (.err e, s1)
  | (.ok body, s1) =>
    match unmarshal body with
    | .error e => (.err e, s1)
    | .ok response => (.ok response, s1)

/-! ## Primitive operations (`client.go`, lines 200-283 and 359-374) -/

/-- The local `url` of `ApiBrokersAdd`. -/
def addEndpoint (broker : Broker) : GoString :=
  str "/api/broker/add?" ++ queryStringFromBroker broker

/-- The local `url` of `ApiBrokersStart`; the identifier is inserted as it is. -/
def startEndpoint (broker : Broker) : GoString :=
  str "/api/broker/start?broker=" ++ broker.ID

/-- The local `url` of `ApiBrokersStop`. -/
def stopEndpoint (BrokerId : Int) : GoString :=
  str "/api/broker/stop?broker=" ++ Itoa BrokerId

/-- The local `url` of `ApiBrokersRemove`. -/
def removeEndpoint (BrokerId : Int) : GoString :=
  str "/api/broker/remove?broker=" ++ Itoa BrokerId

/-- The local `url` of `ApiBrokerUpdate`. -/
def updateEndpoint (broker : Broker) : GoString :=
  str "/api/broker/update?" ++ queryStringFromBroker broker

/-- The local `url` of `ApiBrokerRebalance`. -/
def rebalanceEndpoint : GoString := str "/api/broker/rebalance?broker=*"

/-- The local `url` of `ApiBrokersRebalanceStatus`. -/
def rebalanceStatusEndpoint : GoString := str "/api/broker/rebalance"

/-- The method `ApiBrokersAdd`. -/
def ApiBrokersAdd {σ : Type} (env : Env σ) (broker : Broker) (s : St σ) :
    Outcome Brokers × St σ :=
  getAndDecode env env.unmarshalBrokers (addEndpoint broker) s

/-- The method `ApiBrokersStart`. -/
def ApiBrokersStart {σ : Type} (env : Env σ) (broker : Broker) (s : St σ) :
    Outcome MutateStatus × St σ :=
  getAndDecode env env.unmarshalMutateStatus (startEndpoint broker) s

/-- The method `ApiBrokersStop`. -/
def ApiBrokersStop {σ : Type} (env : Env σ) (BrokerId : Int) (s : St σ) :
    Outcome MutateStatus × St σ :=
  getAndDecode env env.unmarshalMutateStatus (stopEndpoint BrokerId) s

/-- The method `ApiBrokersRemove`. -/
def ApiBrokersRemove {σ : Type} (env : Env σ) (BrokerId : Int) (s : St σ) :
    Outcome MutateStatus × St σ :=
  getAndDecode env env.unmarshalMutateStatus (removeEndpoint BrokerId) s

/-- The method `ApiBrokerUpdate`. -/
def ApiBrokerUpdate {σ : Type} (env : Env σ) (broker : Broker) (s : St σ) :
    Outcome MutateStatus × St σ :=
  getAndDecode env env.unmarshalMutateStatus (updateEndpoint broker) s

/-- The method `ApiBrokersRebalanceStatus`. -/
def ApiBrokersRebalanceStatus {σ : Type} (env : Env σ) (s : St σ) :
    Outcome RebalanceStatus × St σ :=
  getAndDecode env env.unmarshalRebalanceStatus rebalanceStatusEndpoint s

/-! ## The rebalance barrier (`client.go`, lines 327-357) -/

/-- The pointer half of a `(*T, error)` result: `nil` unless the call succeeded. -/
def Outcome.response {α : Type} : Outcome α → Option α
  | .ok a => some a
  | _ => none

/-- The error half of a `(*T, error)` result: `nil` when the call succeeded. -/
def Outcome.error {α : Type} : Outcome α → Option GoError
  | .err e => some e
  | _ => none

/-- A returned `error` as the outcome of a function whose only result it is. -/
def Outcome.ofError : Option GoError → Outcome Unit
  | none => .ok ()
  | some e => .err e

/-- The state after `fmt.Println("Waiting for rebalance...")` and
`time.Sleep(time.Second * 5)`. -/
def waitForRebalance {σ : Type} (env : Env σ) (s : St σ) : St σ :=
  ⟨env.elapse s.world (Second * 5),
   s.trace ++ [Event.println (str "Waiting for rebalance..."), Event.sleep (Second * 5)]⟩

/-- The `for` loop of `ApiBrokerRebalance` (lines 342-354), run for at most
`fuel` polls.  The test `err != err` compares the returned error with itself;
the response of a failed poll is the nil pointer, and reading its `Status`
panics. -/
def rebalanceLoop {σ : Type} (env : Env σ) : Nat → St σ → Option (Outcome Unit × St σ)
  | 0, _ => none
  | fuel + 1, s =>
    match ApiBrokersRebalanceStatus env s with
    | (.panic p, s1) => some (.panic p, s1)
    | (r, s1) =>
      let response := r.response
      let err := r.error
      if err != err then some (Outcome.ofError err, s1)
      else
        match response with
        | none => some (.panic .nilDereference, s1)
        | some response =>
          if response.Status = str "idle" then some (.ok (), s1)
          else rebalanceLoop env fuel (waitForRebalance env s1)

/-- The method `ApiBrokerRebalance`: the trigger call, its decoding, then the
poll loop.  `none` means the loop was still polling after `fuel` polls. -/
def ApiBrokerRebalance {σ : Type} (env : Env σ) (fuel : Nat) (s : St σ) :
    Option (Outcome Unit × St σ) :=
  match getAndDecode env env.unmarshalMutateStatus rebalanceEndpoint s with
  | (.panic p, s1) => some (.panic p, s1)
  | (.err e, s1) => some (.err e, s1)
  | (.ok _, s1) => rebalanceLoop env fuel s1

/-! ## The workflows (`client.go`, lines 285-325 and 376-403)

Each takes the bound `fuel` on the polls of one rebalance.  The result of
`c.ApiBrokerRebalance()` is dropped by the callers; a panic inside it is not a
result and unwinds through them. -/

/-- The method `ApiBrokersCreate`, on the `Brokers` field of its argument. -/
def ApiBrokersCreate {σ : Type} (env : Env σ) (fuel : Nat) :
    List Broker → St σ → Option (Outcome Unit × St σ)
  | [], s => some (.ok (), s)
  | broker :: rest, s =>
    match ApiBrokersAdd env broker s with
    | (.panic p, s1) => some (.panic p, s1)
    | (.err e, s1) => some (.err e, s1)
    | (.ok _, s1) =>
      match ApiBrokersStart env broker s1 with
      | (.panic p, s2) => some (.panic p, s2)
      | (.err e, s2) => some (.err e, s2)
      | (.ok _, s2) =>
        match ApiBrokerRebalance env fuel s2 with
        | none => none
        | some (.panic p, s3) => some (.panic p, s3)
        | some (_, s3) => ApiBrokersCreate env fuel rest s3

/-- The method `ApiBrokersDelete`. -/
def ApiBrokersDelete {σ : Type} (env : Env σ) (fuel : Nat) :
    List Int → St σ → Option (Outcome Unit × St σ)
  | [], s => some (.ok (), s)
  | brokerId :: rest, s =>
    match ApiBrokersStop env brokerId s with
    | (.panic p, s1) => some (.panic p, s1)
    | (.err e, s1) => some (.err e, s1)
    | (.ok _, s1) =>
      match ApiBrokersRemove env brokerId s1 with
      | (.panic p, s2) => some (.panic p, s2)
      | (.err e, s2) => some (.err e, s2)
      | (.ok _, s2) =>
        match ApiBrokerRebalance env fuel s2 with
        | none => none
        | some (.panic p, s3) => some (.panic p, s3)
        | some (_, s3) => ApiBrokersDelete env fuel rest s3

/-- The method `ApiBrokersUpdate`. -/
def ApiBrokersUpdate {σ : Type} (env : Env σ) (fuel : Nat) :
    List Broker → St σ → Option (Outcome Unit × St σ)
  | [], s => some (.ok (), s)
  | broker :: rest, s =>
    match Atoi broker.ID with
    | .error e => some (.err e, s)
    | .ok id =>
      match ApiBrokersStop env id s with
      | (.panic p, s1) => some (.panic p, s1)
      | (.err e, s1) => some (.err e, s1)
      | (.ok _, s1) =>
        match ApiBrokerUpdate env broker s1 with
        | (.panic p, s2) => some (.panic p, s2)
        | (.err e, s2) => some (.err e, s2)
        | (.ok _, s2) =>
          match ApiBrokersStart env broker s2 with
          | (.panic p, s3) => some (.panic p, s3)
          | (.err e, s3) => some (.err e, s3)
          | (.ok _, s3) =>
            match ApiBrokerRebalance env fuel s3 with
            | none => none
            | some (.panic p, s4) => some (.panic p, s4)
            | some (_, s4) => ApiBrokersUpdate env fuel rest s4

/-! ## Reading a query string back -/

/-- Split at every occurrence of a byte (`strings.Split` with a one-byte separator). -/
def splitOn (sep : UInt8) : GoString → List GoString
  | [] => [[]]
  | c :: cs =>
    if c = sep then [] :: splitOn sep cs
    else
      match splitOn sep cs with
      | [] => [[c]]
      | p :: ps => (c :: p) :: ps

/-- The text before and after the first occurrence of a byte (`strings.Cut`). -/
def cut (sep : UInt8) : GoString → GoString × GoString
  | [] => ([], [])
  | c :: cs => if c = sep then ([], cs) else ((c :: (cut sep cs).1), (cut sep cs).2)

/-- The `key=value` pieces of a query string as transmitted, in order: split at
`&`, drop empty pieces, cut each at its first `=` (the scan of
`url.ParseQuery`, without unescaping). -/
def queryPairs (q : GoString) : List (GoString × GoString) :=
  ((splitOn 38 q).filter fun p => p ≠ []).map (cut 61)

/-- The keys of a query string, in order. -/
def queryKeys (q : GoString) : List GoString := (queryPairs q).map Prod.fst

/-- The values a query string gives to a key, in order. -/
def queryValues (key : GoString) (q : GoString) : List GoString :=
  ((queryPairs q).filter fun p => p.1 = key).map Prod.snd

/-- The key/value pairs of a parameter map, key by key. -/
def pairsOf (v : Values) : List (GoString × GoString) :=
  v.flatMap fun e => e.2.map fun x => (e.1, x)

/-- The pairs `queryStringFromBroker` adds, in the order of the source. -/
def addedPairs (b : Broker) : List (GoString × GoString) :=
  [(str "broker", b.ID)]
  ++ (if b.Cpus.neZero then [(str "cpus", FormatFloat b.Cpus)] else [])
  ++ (if b.Memory ≠ 0 then [(str "mem", Itoa b.Memory)] else [])
  ++ (if b.Heap ≠ 0 then [(str "heap", Itoa b.Heap)] else [])
  ++ [(str "jvmOptions", b.JVMOptions)] ++ [(str "log4jOptions", b.Log4jOptions)]
  ++ [(str "options", b.Options)] ++ [(str "constraints", b.Constraints)]
  ++ (if b.Failover.Delay ≠ [] then [(str "failoverDelay", b.Failover.Delay)] else [])
  ++ (if b.Failover.MaxDelay ≠ [] then [(str "failoverMaxDelay", b.Failover.MaxDelay)] else [])
  ++ (if b.Failover.MaxTries ≠ 0 then
        [(str "failoverMaxTries", Itoa b.Failover.MaxTries)] else [])

/-- The events of one waiting round of the poll loop: the status request, the
printed line, the sleep of five seconds. -/
def waitingRound : List Event :=
  [Event.get rebalanceStatusEndpoint, Event.println (str "Waiting for rebalance..."),
   Event.sleep (Second * 5)]

/-- The events of `n` waiting rounds in a row. -/
def waitingRounds : Nat → List Event
  | 0 => []
  | n + 1 => waitingRound ++ waitingRounds n

/-- The remote state after `k` waiting rounds: `k` times a status request
followed by five seconds of waiting. -/
def worldAfterRounds {σ : Type} (env : Env σ) (fullUrl : GoString) : Nat → σ → σ
  | 0, w => w
  | k + 1, w => worldAfterRounds env fullUrl k (env.elapse (env.httpGet w fullUrl).1 (Second * 5))

/-- The reply of the remote side to the status request number `k` (from 0). -/
def pollReply {σ : Type} (env : Env σ) (fullUrl : GoString) (k : Nat) (w : σ) :
    Except GoString HttpResponse :=
  (env.httpGet (worldAfterRounds env fullUrl k w) fullUrl).2

/-- The reply is a response with a 2xx status whose body decodes to a
`RebalanceStatus` with the given `Status`. -/
def AnswersStatus {σ : Type} (env : Env σ) (reply : Except GoString HttpResponse)
    (status : GoString) : Prop :=
  ∃ resp r, reply = .ok resp ∧ checkSuccessfullStatusCode resp = none ∧
    env.unmarshalRebalanceStatus resp.Body = .ok r ∧ r.Status = status

/-- A broker with the given identifier and every other field zero. -/
def plainBroker (id : GoString) : Broker :=
  ⟨id, false, 0, 0, ⟨false, 0, 0⟩, [], [], [], [], ⟨[], [], 0⟩⟩

/-- The function `stringContainsCTLByte` of `net/url`. -/
def stringContainsCTLByte (s : GoString) : Bool :=
  s.any fun b => b < 32 || b == 127

/-- The JSON object with the one member `brokers`, an empty array. -/
def brokersBody : GoString := str "\x7b\"brokers\":[]\x7d"

/-- The JSON object with the one member `started` set to the string `true`. -/
def startedBody : GoString := str "\x7b\"started\":\"true\"\x7d"

/-- The JSON object with the one member `status` set to `idle`. -/
def idleBody : GoString := str "\x7b\"status\":\"idle\"\x7d"

/-- The JSON object with the one member `status` set to `running`. -/
def runningBody : GoString := str "\x7b\"status\":\"running\"\x7d"

/-- The four bodies of the scenarios. -/
def knownBody (body : GoString) : Bool :=
  body = brokersBody ∨ body = startedBody ∨ body = idleBody ∨ body = runningBody

/-- The error of the scripted decoders: the message of `json.Unmarshal` for the
empty input, a generic one for any other body outside the scenarios. -/
def scriptedDecodeError (body : GoString) : GoError :=
  if body = [] then .unmarshal (str "unexpected end of JSON input")
  else .unmarshal (str "body outside the scenarios")

/-- A reply with status `200 OK` and the given body. -/
def ok200 (body : GoString) : Except GoString HttpResponse :=
  .ok ⟨200, str "200 OK", body⟩

/-- A reply with status `500 Internal Server Error`. -/
def fail500 : Except GoString HttpResponse :=
  .ok ⟨500, str "500 Internal Server Error", str "boom"⟩

/-- The scripted environment.

* An endpoint with a control byte before its first `#` does not resolve, as
  `url.Parse` rejects it; the others resolve against a fixed base URL.
* Each request consumes the next reply of the script; once the script is used
  up the transport fails with an end-of-file error.
* Nothing happens on the remote side while the client sleeps.
* The decoders decode the four bodies of the scenarios as `json.Unmarshal`
  does (a member that is absent leaves its field zero) and reject every other
  body, the empty one included. -/
def scriptEnv : Env (List (Except GoString HttpResponse)) where
  resolve := fun ep =>
    if stringContainsCTLByte (cut 35 ep).1 then none
    else some (str "https://kafka.example:7000" ++ ep)
  httpGet := fun w fullUrl =>
    match w with
    | [] => ([], .error (str "Get \"" ++ fullUrl ++ str "\": EOF"))
    | r :: rest => (rest, r)
  elapse := fun w _ => w
  unmarshalBrokers := fun body =>
    if knownBody body then .ok ⟨[]⟩ else .error (scriptedDecodeError body)
  unmarshalMutateStatus := fun body =>
    if body = startedBody then .ok ⟨str "true"⟩
    else if knownBody body then .ok ⟨[]⟩
    else .error (scriptedDecodeError body)
  unmarshalRebalanceStatus := fun body =>
    if body = idleBody then .ok ⟨str "idle", 0, []⟩
    else if body = runningBody then .ok ⟨str "running", 0, []⟩
    else if knownBody body then .ok ⟨[], 0, []⟩
    else .error (scriptedDecodeError body)

/-! # Properties -/

/-! ## The library routines on sample inputs -/

/-- Sample results of `Atoi`: it accepts a sign and leading zeros, rejects the
empty string, letters and underscores, and checks the 64-bit range. -/
theorem Atoi_samples :
    Atoi (str "42") = .ok 42 ∧ Atoi (str "007") = .ok 7 ∧ Atoi (str "+5") = .ok 5 ∧
    Atoi (str "-0") = .ok 0 ∧
    Atoi (str "-9223372036854775808") = .ok (-9223372036854775808) ∧
    Atoi (str "abc") = .error (.numError (str "Atoi") (str "abc") .badSyntax) ∧
    Atoi [] = .error (.numError (str "Atoi") [] .badSyntax) ∧
    Atoi (str "1_000") = .error (.numError (str "Atoi") (str "1_000") .badSyntax) ∧
    Atoi (str "9223372036854775808") =
      .error (.numError (str "Atoi") (str "9223372036854775808") .outOfRange) :=
  ⟨rfl, rfl, rfl, rfl, rfl, rfl, rfl, rfl, rfl⟩

/-- Sample results of `FormatFloat`: 1.5, 0.1, the tie 1/128 = 0.0078125 (rounded
to the even digit), minus the smallest subnormal, a NaN and the infinities. -/
theorem FormatFloat_samples :
    FormatFloat onePointFive = str "1.500000" ∧
    FormatFloat ⟨false, 1019, 2702159776422298⟩ = str "0.100000" ∧
    FormatFloat ⟨false, 1016, 0⟩ = str "0.007812" ∧
    FormatFloat ⟨true, 0, 1⟩ = str "-0.000000" ∧
    FormatFloat ⟨false, 2047, 1⟩ = str "NaN" ∧
    FormatFloat ⟨false, 2047, 0⟩ = str "+Inf" ∧
    FormatFloat ⟨true, 2047, 0⟩ = str "-Inf" := by
  decide

/-! ## Escaping and parsing -/

theorem upperhex_ne (n : Nat) (h : n < 16) : upperhex n ≠ 38 ∧ upperhex n ≠ 61 := by
  interval_cases n <;> decide

theorem mem_QueryEscape (s : GoString) : ∀ c ∈ QueryEscape s, c ≠ 38 ∧ c ≠ 61 := by
  induction s with
  | nil => intro c hc; simp [QueryEscape] at hc
  | cons a as ih =>
    intro c hc
    unfold QueryEscape at hc
    by_cases hesc : shouldEscape a = true
    · rw [if_pos hesc] at hc
      by_cases hsp : a = 32
      · rw [if_pos hsp] at hc
        rcases List.mem_cons.1 hc with h | h
        · subst h; decide
        · exact ih c h
      · rw [if_neg hsp] at hc
        have hlt : a.toNat < 256 := UInt8.toNat_lt_size a
        rcases List.mem_cons.1 hc with h | h
        · subst h; decide
        rcases List.mem_cons.1 h with h | h
        · subst h; exact upperhex_ne _ (by omega)
        rcases List.mem_cons.1 h with h | h
        · subst h; exact upperhex_ne _ (by omega)
        · exact ih c h
    · rw [if_neg hesc] at hc
      rcases List.mem_cons.1 hc with h | h
      · subst h
        constructor
        · rintro rfl; exact hesc (by decide)
        · rintro rfl; exact hesc (by decide)
      · exact ih c h

theorem splitOn_cons (sep c : UInt8) (cs : GoString) :
    splitOn sep (c :: cs) =
      if c = sep then [] :: splitOn sep cs
      else
        match splitOn sep cs with
        | [] => [[c]]
        | p :: ps => (c :: p) :: ps := rfl

theorem cut_cons (sep c : UInt8) (cs : GoString) :
    cut sep (c :: cs) =
      if c = sep then ([], cs) else ((c :: (cut sep cs).1), (cut sep cs).2) := rfl

theorem splitOn_ne_nil (sep : UInt8) (s : GoString) : splitOn sep s ≠ [] := by
  cases s with
  | nil => simp [splitOn]
  | cons c cs =>
    unfold splitOn
    split
    · simp
    · split <;> simp

theorem splitOn_of_not_mem (sep : UInt8) (p : GoString) (h : sep ∉ p) : splitOn sep p = [p] := by
  induction p with
  | nil => rfl
  | cons c cs ih =>
    have hc : c ≠ sep := fun e => h (by simp [e])
    have hcs : sep ∉ cs := fun e => h (List.mem_cons_of_mem _ e)
    rw [splitOn_cons, if_neg hc, ih hcs]

theorem splitOn_append (sep : UInt8) (p rest : GoString) (h : sep ∉ p) :
    splitOn sep (p ++ sep :: rest) = p :: splitOn sep rest := by
  induction p with
  | nil => simp [splitOn]
  | cons c cs ih =>
    have hc : c ≠ sep := fun e => h (by simp [e])
    have hcs : sep ∉ cs := fun e => h (List.mem_cons_of_mem _ e)
    rw [List.cons_append]
    rw [splitOn_cons, if_neg hc, ih hcs]

theorem splitOn_joinAmp (ps : List GoString) (hne : ps ≠ []) (h : ∀ p ∈ ps, (38 : UInt8) ∉ p) :
    splitOn 38 (joinAmp ps) = ps := by
  induction ps with
  | nil => exact absurd rfl hne
  | cons p rest ih =>
    cases rest with
    | nil => simpa [joinAmp] using splitOn_of_not_mem 38 p (h p (by simp))
    | cons q rest =>
      have hp := h p (by simp)
      have ih2 := ih (by simp) (fun x hx => h x (List.mem_cons_of_mem _ hx))
      simp only [joinAmp]
      rw [splitOn_append 38 p _ hp, ih2]

theorem cut_append (sep : UInt8) (k v : GoString) (h : sep ∉ k) :
    cut sep (k ++ sep :: v) = (k, v) := by
  induction k with
  | nil => simp [cut]
  | cons c cs ih =>
    have hc : c ≠ sep := fun e => h (by simp [e])
    have hcs : sep ∉ cs := fun e => h (List.mem_cons_of_mem _ e)
    rw [List.cons_append]
    rw [cut_cons, if_neg hc, ih hcs]

/-- Parsing a joined list of `key=value` pieces gives the pieces back, when
neither side contains `&` and no key contains `=`. -/
theorem queryPairs_joinAmp (ps : List (GoString × GoString))
    (h : ∀ p ∈ ps, (38 : UInt8) ∉ p.1 ∧ (61 : UInt8) ∉ p.1 ∧ (38 : UInt8) ∉ p.2) :
    queryPairs (joinAmp (ps.map fun p => p.1 ++ 61 :: p.2)) = ps := by
  cases ps with
  | nil => simp [queryPairs, joinAmp, splitOn]
  | cons p rest =>
    unfold queryPairs
    rw [splitOn_joinAmp _ (by simp)]
    · rw [List.filter_eq_self.2, List.map_map]
      · conv_rhs => rw [← List.map_id (p :: rest)]
        apply List.map_congr_left
        intro q hq
        simp only [Function.comp, id]
        rw [cut_append 61 q.1 q.2 (h q hq).2.1]
      · intro x hx
        obtain ⟨q, -, rfl⟩ := List.mem_map.1 hx
        simp
    · intro x hx
      obtain ⟨q, hq, rfl⟩ := List.mem_map.1 hx
      have := h q hq
      simp only [List.mem_append, List.mem_cons, not_or]
      exact ⟨this.1, by decide, this.2.2⟩

/-! ## The encoded form of a parameter map -/

theorem insertByKey_perm (e : GoString × List GoString) (l : Values) :
    (insertByKey e l).Perm (e :: l) := by
  induction l with
  | nil => exact List.Perm.refl _
  | cons f rest ih =>
    unfold insertByKey
    split
    · exact (List.Perm.cons f ih).trans (List.Perm.swap e f rest)
    · exact List.Perm.refl _

theorem sortByKey_perm (v : Values) : (sortByKey v).Perm v := by
  induction v with
  | nil => exact List.Perm.refl _
  | cons e rest ih =>
    exact (insertByKey_perm e (sortByKey rest)).trans (List.Perm.cons e ih)

theorem pairsOf_perm {v w : Values} (h : v.Perm w) : (pairsOf v).Perm (pairsOf w) :=
  List.Perm.flatMap_right _ h

theorem pairsOf_add (v : Values) (k x : GoString) :
    (pairsOf (Values.Add v k x)).Perm (pairsOf v ++ [(k, x)]) := by
  induction v with
  | nil => simp [Values.Add, pairsOf]
  | cons e rest ih =>
    obtain ⟨k', vs⟩ := e
    unfold Values.Add
    by_cases hk : k' = k
    · subst hk
      rw [if_pos rfl]
      simp only [pairsOf, List.flatMap_cons, List.map_append, List.map_cons, List.map_nil,
        List.append_assoc]
      exact List.Perm.append_left _ List.perm_append_comm
    · rw [if_neg hk]
      simp only [pairsOf, List.flatMap_cons, List.append_assoc] at ih ⊢
      exact List.Perm.append_left _ ih

theorem pairsOf_add_of_perm {v : Values} {l : List (GoString × GoString)} (k x : GoString)
    (h : (pairsOf v).Perm l) : (pairsOf (Values.Add v k x)).Perm (l ++ [(k, x)]) :=
  (pairsOf_add v k x).trans (List.Perm.append_right _ h)

theorem pairsOf_ite_add_of_perm (c : Prop) [Decidable c] {v : Values}
    {l : List (GoString × GoString)} (k x : GoString) (h : (pairsOf v).Perm l) :
    (pairsOf (if c then Values.Add v k x else v)).Perm (l ++ if c then [(k, x)] else []) := by
  by_cases hc : c
  · simpa [hc] using pairsOf_add_of_perm k x h
  · simpa [hc] using h

theorem pairsOf_brokerParams (b : Broker) : (pairsOf (brokerParams b)).Perm (addedPairs b) := by
  have h0 : (pairsOf (Values.Add [] (str "broker") b.ID)).Perm [(str "broker", b.ID)] := by
    simp [Values.Add, pairsOf]
  exact pairsOf_ite_add_of_perm (b.Failover.MaxTries ≠ 0) (str "failoverMaxTries")
    (Itoa b.Failover.MaxTries)
    (pairsOf_ite_add_of_perm (b.Failover.MaxDelay ≠ []) (str "failoverMaxDelay")
      b.Failover.MaxDelay
    (pairsOf_ite_add_of_perm (b.Failover.Delay ≠ []) (str "failoverDelay") b.Failover.Delay
    (pairsOf_add_of_perm (str "constraints") b.Constraints
    (pairsOf_add_of_perm (str "options") b.Options
    (pairsOf_add_of_perm (str "log4jOptions") b.Log4jOptions
    (pairsOf_add_of_perm (str "jvmOptions") b.JVMOptions
    (pairsOf_ite_add_of_perm (b.Heap ≠ 0) (str "heap") (Itoa b.Heap)
    (pairsOf_ite_add_of_perm (b.Memory ≠ 0) (str "mem") (Itoa b.Memory)
    (pairsOf_ite_add_of_perm (b.Cpus.neZero = true) (str "cpus") (FormatFloat b.Cpus)
      h0)))))))))

theorem Encode_eq (v : Values) :
    Values.Encode v =
      joinAmp (((pairsOf (sortByKey v)).map fun p => (QueryEscape p.1, QueryEscape p.2)).map
        fun p => p.1 ++ 61 :: p.2) := by
  unfold Values.Encode pairsOf encodePiece
  rw [List.map_map, List.map_flatMap]
  congr 1
  apply List.flatMap_congr
  intro e _
  rw [List.map_map]
  rfl

/-- Reading back the encoded form of a parameter map gives its pairs, escaped,
in key order. -/
theorem queryPairs_Encode (v : Values) :
    queryPairs (Values.Encode v) =
      (pairsOf (sortByKey v)).map fun p => (QueryEscape p.1, QueryEscape p.2) := by
  rw [Encode_eq]
  apply queryPairs_joinAmp
  intro p hp
  obtain ⟨q, -, rfl⟩ := List.mem_map.1 hp
  exact ⟨fun h => (mem_QueryEscape _ _ h).1 rfl, fun h => (mem_QueryEscape _ _ h).2 rfl,
    fun h => (mem_QueryEscape _ _ h).1 rfl⟩

/-- The pairs read back from the output of `queryStringFromBroker` are the
pairs the function adds, escaped, up to order. -/
theorem queryPairs_queryStringFromBroker (b : Broker) :
    (queryPairs (queryStringFromBroker b)).Perm
      ((addedPairs b).map fun p => (QueryEscape p.1, QueryEscape p.2)) := by
  unfold queryStringFromBroker
  rw [queryPairs_Encode]
  exact List.Perm.map _ ((pairsOf_perm (sortByKey_perm _)).trans (pairsOf_brokerParams b))

/-! ## The keys of `queryStringFromBroker` -/

/-- The keys `queryStringFromBroker` adds, in the order of the source. -/
theorem map_fst_addedPairs (b : Broker) :
    ((addedPairs b).map fun p => (QueryEscape p.1, QueryEscape p.2)).map Prod.fst =
      [str "broker"]
      ++ (if b.Cpus.neZero then [str "cpus"] else [])
      ++ (if b.Memory ≠ 0 then [str "mem"] else [])
      ++ (if b.Heap ≠ 0 then [str "heap"] else [])
      ++ [str "jvmOptions"] ++ [str "log4jOptions"] ++ [str "options"] ++ [str "constraints"]
      ++ (if b.Failover.Delay ≠ [] then [str "failoverDelay"] else [])
      ++ (if b.Failover.MaxDelay ≠ [] then [str "failoverMaxDelay"] else [])
      ++ (if b.Failover.MaxTries ≠ 0 then [str "failoverMaxTries"] else []) := by
  have e1 : QueryEscape (str "broker") = str "broker" := by decide
  have e2 : QueryEscape (str "cpus") = str "cpus" := by decide
  have e3 : QueryEscape (str "mem") = str "mem" := by decide
  have e4 : QueryEscape (str "heap") = str "heap" := by decide
  have e5 : QueryEscape (str "jvmOptions") = str "jvmOptions" := by decide
  have e6 : QueryEscape (str "log4jOptions") = str "log4jOptions" := by decide
  have e7 : QueryEscape (str "options") = str "options" := by decide
  have e8 : QueryEscape (str "constraints") = str "constraints" := by decide
  have e9 : QueryEscape (str "failoverDelay") = str "failoverDelay" := by decide
  have e10 : QueryEscape (str "failoverMaxDelay") = str "failoverMaxDelay" := by decide
  have e11 : QueryEscape (str "failoverMaxTries") = str "failoverMaxTries" := by decide
  unfold addedPairs
  simp only [List.map_append, List.map_cons, List.map_nil, apply_ite (List.map _), e1, e2, e3, e4,
    e5, e6, e7, e8, e9, e10, e11]

theorem ite_singleton_sublist {α : Type} (c : Prop) [Decidable c] (a : α) :
    (if c then [a] else []).Sublist [a] := by
  split
  · exact List.Sublist.refl _
  · exact List.nil_sublist _

theorem or_shuffle (k1 k2 k3 k4 k5 k6 k7 k8 k9 k10 k11 c2 c3 c4 c9 c10 c11 : Prop) :
    ((((((((((k1 ∨ c2 ∧ k2) ∨ c3 ∧ k3) ∨ c4 ∧ k4) ∨ k5) ∨ k6) ∨ k7) ∨ k8) ∨ c9 ∧ k9) ∨
      c10 ∧ k10) ∨ c11 ∧ k11) ↔
    (k1 ∨ k5 ∨ k6 ∨ k7 ∨ k8 ∨ k2 ∧ c2 ∨ k3 ∧ c3 ∨ k4 ∧ c4 ∨ k9 ∧ c9 ∨ k10 ∧ c10 ∨
      k11 ∧ c11) := by
  constructor
  · rintro ((((((((((h | ⟨hc, h⟩) | ⟨hc, h⟩) | ⟨hc, h⟩) | h) | h) | h) | h) | ⟨hc, h⟩) |
      ⟨hc, h⟩) | ⟨hc, h⟩) <;> simp [*]
  · rintro (h | h | h | h | h | ⟨h, hc⟩ | ⟨h, hc⟩ | ⟨h, hc⟩ | ⟨h, hc⟩ | ⟨h, hc⟩ | ⟨h, hc⟩) <;>
      simp [*]

/-- C1. The keys of the output of `queryStringFromBroker` are pairwise distinct,
and a key occurs in it exactly when it is one of the five mandatory keys
`broker`, `jvmOptions`, `log4jOptions`, `options`, `constraints`, or `cpus` with
`Cpus != 0`, or `mem` with `Memory != 0`, or `heap` with `Heap != 0`, or
`failoverDelay` with a non-empty `Failover.Delay`, or `failoverMaxDelay` with a
non-empty `Failover.MaxDelay`, or `failoverMaxTries` with `Failover.MaxTries != 0`.
In particular, with zero numeric fields and empty failover fields the keys are
the five mandatory ones and nothing else. -/
theorem queryStringFromBroker_keys (b : Broker) :
    (queryKeys (queryStringFromBroker b)).Nodup ∧
    (∀ k : GoString, k ∈ queryKeys (queryStringFromBroker b) ↔
      (k = str "broker" ∨ k = str "jvmOptions" ∨ k = str "log4jOptions" ∨
        k = str "options" ∨ k = str "constraints" ∨
        (k = str "cpus" ∧ b.Cpus.neZero = true) ∨
        (k = str "mem" ∧ b.Memory ≠ 0) ∨
        (k = str "heap" ∧ b.Heap ≠ 0) ∨
        (k = str "failoverDelay" ∧ b.Failover.Delay ≠ []) ∨
        (k = str "failoverMaxDelay" ∧ b.Failover.MaxDelay ≠ []) ∨
        (k = str "failoverMaxTries" ∧ b.Failover.MaxTries ≠ 0))) ∧
    (b.Cpus.neZero = false → b.Memory = 0 → b.Heap = 0 → b.Failover.Delay = [] →
      b.Failover.MaxDelay = [] → b.Failover.MaxTries = 0 →
      (queryKeys (queryStringFromBroker b)).Perm
        [str "broker", str "jvmOptions", str "log4jOptions", str "options",
          str "constraints"]) := by
  have hperm := (queryPairs_queryStringFromBroker b).map Prod.fst
  rw [map_fst_addedPairs] at hperm
  refine ⟨?_, ?_, ?_⟩
  · refine (List.Perm.nodup_iff hperm).2 ?_
    have hall : ([str "broker"] ++ [str "cpus"] ++ [str "mem"] ++ [str "heap"]
        ++ [str "jvmOptions"] ++ [str "log4jOptions"] ++ [str "options"] ++ [str "constraints"]
        ++ [str "failoverDelay"] ++ [str "failoverMaxDelay"]
        ++ [str "failoverMaxTries"] : List GoString).Nodup := by decide
    refine List.Nodup.sublist ?_ hall
    exact (((((((((((List.Sublist.refl _).append
      (ite_singleton_sublist _ _)).append
      (ite_singleton_sublist _ _)).append
      (ite_singleton_sublist _ _)).append
      (List.Sublist.refl _)).append
      (List.Sublist.refl _)).append
      (List.Sublist.refl _)).append
      (List.Sublist.refl _)).append
      (ite_singleton_sublist _ _)).append
      (ite_singleton_sublist _ _)).append
      (ite_singleton_sublist _ _))
  · intro k
    unfold queryKeys
    rw [List.Perm.mem_iff hperm]
    simp only [List.mem_append, List.mem_singleton, List.mem_ite_nil_right, ne_eq]
    exact or_shuffle _ _ _ _ _ _ _ _ _ _ _ _ _ _ _ _ _
  · intro h1 h2 h3 h4 h5 h6
    simpa [h1, h2, h3, h4, h5, h6] using hperm

/-- The output for a broker with identifier `0` and every other field zero:
the five mandatory keys, in key order. -/
theorem queryStringFromBroker_plain :
    queryStringFromBroker (plainBroker (str "0")) =
      str "broker=0&constraints=&jvmOptions=&log4jOptions=&options=" := by
  decide

/-- The output for a broker with every optional field set: eleven keys in key
order, values escaped. -/
theorem queryStringFromBroker_full :
    queryStringFromBroker
      ⟨str "a b", true, 1024, -5, onePointFive, str "x=y", str "h:like", str "-Xmx", [],
        ⟨str "10s", str "1m", 3⟩⟩ =
      str ("broker=a+b&constraints=h%3Alike&cpus=1.500000&failoverDelay=10s" ++
        "&failoverMaxDelay=1m&failoverMaxTries=3&heap=-5&jvmOptions=-Xmx" ++
        "&log4jOptions=x%3Dy&mem=1024&options=") := by
  decide

/-! ## The `cpus` parameter -/

theorem queryValues_perm (key : GoString) (b : Broker) :
    (queryValues key (queryStringFromBroker b)).Perm
      ((((addedPairs b).map fun p => (QueryEscape p.1, QueryEscape p.2)).filter
        fun p => p.1 = key).map Prod.snd) :=
  ((queryPairs_queryStringFromBroker b).filter _).map _

/-- C9. For a broker whose `Cpus` is 1.5 the output of `queryStringFromBroker`
carries the key `cpus` exactly once, with the value `1.500000`. -/
theorem cpus_one_point_five (b : Broker) (h : b.Cpus = onePointFive) :
    queryValues (str "cpus") (queryStringFromBroker b) = [str "1.500000"] := by
  have hperm := queryValues_perm (str "cpus") b
  have e1 : ¬ QueryEscape (str "broker") = str "cpus" := by decide
  have e2 : QueryEscape (str "cpus") = str "cpus" := by decide
  have e3 : ¬ QueryEscape (str "mem") = str "cpus" := by decide
  have e4 : ¬ QueryEscape (str "heap") = str "cpus" := by decide
  have e5 : ¬ QueryEscape (str "jvmOptions") = str "cpus" := by decide
  have e6 : ¬ QueryEscape (str "log4jOptions") = str "cpus" := by decide
  have e7 : ¬ QueryEscape (str "options") = str "cpus" := by decide
  have e8 : ¬ QueryEscape (str "constraints") = str "cpus" := by decide
  have e9 : ¬ QueryEscape (str "failoverDelay") = str "cpus" := by decide
  have e10 : ¬ QueryEscape (str "failoverMaxDelay") = str "cpus" := by decide
  have e11 : ¬ QueryEscape (str "failoverMaxTries") = str "cpus" := by decide
  have hz : onePointFive.neZero = true := by decide
  have hf : QueryEscape (FormatFloat onePointFive) = str "1.500000" := by decide
  have hlist : (((addedPairs b).map fun p => (QueryEscape p.1, QueryEscape p.2)).filter
      fun p => p.1 = str "cpus").map Prod.snd = [str "1.500000"] := by
    unfold addedPairs
    rw [h]
    simp only [hz, if_true, List.map_append, List.map_cons, List.map_nil, List.filter_append,
      apply_ite (List.map _), apply_ite (List.filter _), List.filter_cons, List.filter_nil,
      e1, e2, e3, e4, e5, e6, e7, e8, e9, e10, e11, hf, decide_True, decide_False,
      if_false, ite_self, List.append_nil, List.nil_append, Bool.false_eq_true]
  rw [hlist] at hperm
  exact List.perm_singleton.1 hperm

/-- A concrete broker with `Cpus` 1.5 and other fields set. -/
theorem cpus_one_point_five_witness :
    queryValues (str "cpus")
      (queryStringFromBroker
        ⟨str "3", true, 2048, 1024, onePointFive, [], str "hostname=like:slave.*", [], [],
          ⟨str "10s", [], 5⟩⟩) = [str "1.500000"] :=
  cpus_one_point_five _ rfl

/-! ## Requests and traces -/

/-- A request that does not panic adds exactly its own event to the trace. -/
theorem getAndDecode_trace {σ α : Type} (env : Env σ) (um : GoString → Except GoError α)
    (url : GoString) (s s1 : St σ) (o : Outcome α) (h : getAndDecode env um url s = (o, s1))
    (hp : ∀ p, o ≠ .panic p) : s1.trace = s.trace ++ [Event.get url] := by
  unfold getAndDecode getJson at h
  cases hr : env.resolve url with
  | none =>
    simp only [hr] at h
    injection h with h1 h2
    exact absurd h1.symm (hp _)
  | some fullUrl =>
    simp only [hr] at h
    cases hg : (env.httpGet s.world fullUrl).2 with
    | error e =>
      simp only [hg] at h
      injection h with h1 h2
      rw [← h2]
    | ok resp =>
      simp only [hg] at h
      cases hc : checkSuccessfullStatusCode resp with
      | some e =>
        simp only [hc] at h
        injection h with h1 h2
        rw [← h2]
      | none =>
        simp only [hc] at h
        cases hu : um resp.Body with
        | error e =>
          simp only [hu] at h
          injection h with h1 h2
          rw [← h2]
        | ok r =>
          simp only [hu] at h
          injection h with h1 h2
          rw [← h2]

/-- A request whose endpoint resolves, that is answered with a 2xx status and
whose body decodes, returns the decoded value. -/
theorem getAndDecode_ok {σ α : Type} (env : Env σ) (um : GoString → Except GoError α)
    (url fullUrl : GoString) (s : St σ) (resp : HttpResponse) (r : α)
    (hres : env.resolve url = some fullUrl)
    (hget : (env.httpGet s.world fullUrl).2 = .ok resp)
    (hcode : checkSuccessfullStatusCode resp = none) (hum : um resp.Body = .ok r) :
    getAndDecode env um url s =
      (.ok r, ⟨(env.httpGet s.world fullUrl).1, s.trace ++ [Event.get url]⟩) := by
  unfold getAndDecode getJson
  simp only [hres, hget, hcode, hum]

/-! ## The rebalance barrier -/

/-- A status poll answered with a decodable 2xx reply returns the decoded status. -/
theorem rebalanceStatus_of_answer {σ : Type} (env : Env σ) (fullUrl : GoString) (s : St σ)
    (status : GoString) (hres : env.resolve rebalanceStatusEndpoint = some fullUrl)
    (h : AnswersStatus env (env.httpGet s.world fullUrl).2 status) :
    ∃ r, r.Status = status ∧ ApiBrokersRebalanceStatus env s =
      (.ok r, ⟨(env.httpGet s.world fullUrl).1, s.trace ++ [Event.get rebalanceStatusEndpoint]⟩) := by
  obtain ⟨resp, r, hget, hcode, hum, hst⟩ := h
  exact ⟨r, hst, getAndDecode_ok env _ _ fullUrl s resp r hres hget hcode hum⟩

/-- The poll loop against `n` non-idle answers followed by an idle one. -/
theorem rebalanceLoop_idle_after {σ : Type} (env : Env σ) (fullUrl : GoString)
    (hres : env.resolve rebalanceStatusEndpoint = some fullUrl) (extra : Nat) :
    ∀ (n : Nat) (s : St σ),
      (∀ k, k < n → ∃ status, status ≠ str "idle" ∧
        AnswersStatus env (pollReply env fullUrl k s.world) status) →
      AnswersStatus env (pollReply env fullUrl n s.world) (str "idle") →
      rebalanceLoop env (n + 1 + extra) s =
        some (.ok (), ⟨(env.httpGet (worldAfterRounds env fullUrl n s.world) fullUrl).1,
          s.trace ++ waitingRounds n ++ [Event.get rebalanceStatusEndpoint]⟩) := by
  intro n
  induction n with
  | zero =>
    intro s _ hidle
    obtain ⟨r, hst, hcall⟩ := rebalanceStatus_of_answer env fullUrl s _ hres hidle
    have hfuel : 0 + 1 + extra = extra + 1 := by omega
    rw [hfuel]
    unfold rebalanceLoop
    simp only [hcall, Outcome.response, Outcome.error, bne_self_eq_false, hst, if_true,
      worldAfterRounds, waitingRounds, List.append_nil, Bool.false_eq_true, if_false]
  | succ n ih =>
    intro s hbusy hidle
    obtain ⟨status, hne, hans⟩ := hbusy 0 (Nat.succ_pos n)
    obtain ⟨r, hst, hcall⟩ := rebalanceStatus_of_answer env fullUrl s _ hres hans
    have hfuel : n + 1 + 1 + extra = (n + 1 + extra) + 1 := by omega
    have hr : ¬ r.Status = str "idle" := by rw [hst]; exact hne
    rw [hfuel]
    unfold rebalanceLoop
    simp only [hcall, Outcome.response, Outcome.error, bne_self_eq_false, hr, if_false,
      Bool.false_eq_true]
    rw [ih (waitForRebalance env
      ⟨(env.httpGet s.world fullUrl).1, s.trace ++ [Event.get rebalanceStatusEndpoint]⟩)
      (fun k hk => hbusy (k + 1) (Nat.succ_lt_succ hk)) hidle]
    simp only [waitForRebalance, worldAfterRounds, waitingRounds, waitingRound,
      List.append_assoc, List.cons_append, List.nil_append]

/-- C2. When the trigger call succeeds and decodes, and the status endpoint
answers `n` non-idle statuses and then `idle`, `ApiBrokerRebalance` returns
success whenever it is allowed at least `n + 1` polls, and what it has done is
exactly: one trigger request, then `n` waiting rounds (status request, printed
line, sleep of five seconds), then one last status request with no sleep after it. -/
theorem ApiBrokerRebalance_idle_after {σ : Type} (env : Env σ) (fullUrl : GoString)
    (n extra : Nat) (s0 s1 : St σ) (m : MutateStatus)
    (htrigger : getAndDecode env env.unmarshalMutateStatus rebalanceEndpoint s0 = (.ok m, s1))
    (hres : env.resolve rebalanceStatusEndpoint = some fullUrl)
    (hbusy : ∀ k, k < n → ∃ status, status ≠ str "idle" ∧
      AnswersStatus env (pollReply env fullUrl k s1.world) status)
    (hidle : AnswersStatus env (pollReply env fullUrl n s1.world) (str "idle")) :
    ApiBrokerRebalance env (n + 1 + extra) s0 =
      some (.ok (), ⟨(env.httpGet (worldAfterRounds env fullUrl n s1.world) fullUrl).1,
        s0.trace ++ [Event.get rebalanceEndpoint] ++ waitingRounds n ++
          [Event.get rebalanceStatusEndpoint]⟩) := by
  have htrace := getAndDecode_trace env _ _ s0 s1 _ htrigger (fun p hp => by cases hp)
  unfold ApiBrokerRebalance
  simp only [htrigger]
  rw [rebalanceLoop_idle_after env fullUrl hres extra n s1 hbusy hidle, htrace]

/-- A scripted run of the barrier: the remote side answers the trigger and then
`running`, `running`, `idle`.  One trigger, three polls, two sleeps of five
seconds. -/
theorem ApiBrokerRebalance_idle_after_witness :
    ApiBrokerRebalance scriptEnv 3
      ⟨[ok200 startedBody, ok200 runningBody, ok200 runningBody, ok200 idleBody], []⟩ =
      some (.ok (), ⟨[],
        [Event.get (str "/api/broker/rebalance?broker=*"),
         Event.get (str "/api/broker/rebalance"),
         Event.println (str "Waiting for rebalance..."), Event.sleep 5000000000,
         Event.get (str "/api/broker/rebalance"),
         Event.println (str "Waiting for rebalance..."), Event.sleep 5000000000,
         Event.get (str "/api/broker/rebalance")]⟩) :=
  ApiBrokerRebalance_idle_after scriptEnv
    (str "https://kafka.example:7000" ++ rebalanceStatusEndpoint) 2 0
    ⟨[ok200 startedBody, ok200 runningBody, ok200 runningBody, ok200 idleBody], []⟩
    ⟨[ok200 runningBody, ok200 runningBody, ok200 idleBody], [Event.get rebalanceEndpoint]⟩
    ⟨str "true"⟩ rfl rfl
    (fun k hk => by
      have hk2 : k = 0 ∨ k = 1 := by omega
      rcases hk2 with rfl | rfl
      · exact ⟨str "running", by decide, ⟨200, str "200 OK", runningBody⟩,
          ⟨str "running", 0, []⟩, rfl, rfl, rfl, rfl⟩
      · exact ⟨str "running", by decide, ⟨200, str "200 OK", runningBody⟩,
          ⟨str "running", 0, []⟩, rfl, rfl, rfl, rfl⟩)
    ⟨⟨200, str "200 OK", idleBody⟩, ⟨str "idle", 0, []⟩, rfl, rfl, rfl, rfl⟩

/-- C3 (what the code does). After a successful trigger, a status poll that
returns an error is not treated as "not yet idle": the test `err != err` is
false, the nil response is read, and `ApiBrokerRebalance` panics at that poll.
It does not sleep, it does not poll again, and it returns neither success nor
an error. -/
theorem ApiBrokerRebalance_poll_error {σ : Type} (env : Env σ) (fuel : Nat) (s0 s1 s2 : St σ)
    (m : MutateStatus) (e : GoError)
    (htrigger : getAndDecode env env.unmarshalMutateStatus rebalanceEndpoint s0 = (.ok m, s1))
    (hpoll : ApiBrokersRebalanceStatus env s1 = (.err e, s2)) :
    ApiBrokerRebalance env (fuel + 1) s0 = some (.panic .nilDereference, s2) := by
  unfold ApiBrokerRebalance
  simp only [htrigger]
  unfold rebalanceLoop
  simp only [hpoll, Outcome.response, Outcome.error, bne_self_eq_false, Bool.false_eq_true,
    if_false]

/-- A scripted run with a failed poll: trigger answered, first status poll
answered with status 500, an `idle` answer waiting behind it.  The call panics
on the failed poll; nothing is printed, no sleep is made, and the `idle`
answer is never asked for. -/
theorem ApiBrokerRebalance_failed_poll_panics :
    ApiBrokerRebalance scriptEnv 3 ⟨[ok200 startedBody, fail500, ok200 idleBody], []⟩ =
      some (.panic .nilDereference, ⟨[ok200 idleBody],
        [Event.get (str "/api/broker/rebalance?broker=*"),
         Event.get (str "/api/broker/rebalance")]⟩) :=
  ApiBrokerRebalance_poll_error scriptEnv 2 ⟨[ok200 startedBody, fail500, ok200 idleBody], []⟩
    ⟨[fail500, ok200 idleBody], [Event.get rebalanceEndpoint]⟩ _ ⟨str "true"⟩ _ rfl rfl

/-! ## The workflows, one entry at a time -/

theorem ApiBrokersCreate_cons {σ : Type} (env : Env σ) (fuel : Nat) (broker : Broker)
    (rest : List Broker) (s : St σ) :
    ApiBrokersCreate env fuel (broker :: rest) s =
      match ApiBrokersAdd env broker s with
      | (.panic p, s1) => some (.panic p, s1)
      | (.err e, s1) => some (.err e, s1)
      | (.ok _, s1) =>
        match ApiBrokersStart env broker s1 with
        | (.panic p, s2) => some (.panic p, s2)
        | (.err e, s2) => some (.err e, s2)
        | (.ok _, s2) =>
          match ApiBrokerRebalance env fuel s2 with
          | none => none
          | some (.panic p, s3) => some (.panic p, s3)
          | some (_, s3) => ApiBrokersCreate env fuel rest s3 := rfl

theorem ApiBrokersDelete_cons {σ : Type} (env : Env σ) (fuel : Nat) (brokerId : Int)
    (rest : List Int) (s : St σ) :
    ApiBrokersDelete env fuel (brokerId :: rest) s =
      match ApiBrokersStop env brokerId s with
      | (.panic p, s1) => some (.panic p, s1)
      | (.err e, s1) => some (.err e, s1)
      | (.ok _, s1) =>
        match ApiBrokersRemove env brokerId s1 with
        | (.panic p, s2) => some (.panic p, s2)
        | (.err e, s2) => some (.err e, s2)
        | (.ok _, s2) =>
          match ApiBrokerRebalance env fuel s2 with
          | none => none
          | some (.panic p, s3) => some (.panic p, s3)
          | some (_, s3) => ApiBrokersDelete env fuel rest s3 := rfl

theorem ApiBrokersUpdate_cons {σ : Type} (env : Env σ) (fuel : Nat) (broker : Broker)
    (rest : List Broker) (s : St σ) :
    ApiBrokersUpdate env fuel (broker :: rest) s =
      match Atoi broker.ID with
      | .error e => some (.err e, s)
      | .ok id =>
        match ApiBrokersStop env id s with
        | (.panic p, s1) => some (.panic p, s1)
        | (.err e, s1) => some (.err e, s1)
        | (.ok _, s1) =>
          match ApiBrokerUpdate env broker s1 with
          | (.panic p, s2) => some (.panic p, s2)
          | (.err e, s2) => some (.err e, s2)
          | (.ok _, s2) =>
            match ApiBrokersStart env broker s2 with
            | (.panic p, s3) => some (.panic p, s3)
            | (.err e, s3) => some (.err e, s3)
            | (.ok _, s3) =>
              match ApiBrokerRebalance env fuel s3 with
              | none => none
              | some (.panic p, s4) => some (.panic p, s4)
              | some (_, s4) => ApiBrokersUpdate env fuel rest s4 := rfl

/-- An entry of `ApiBrokersCreate` whose calls return and whose rebalance does
not panic hands over to the next entry, whatever the rebalance returned. -/
theorem ApiBrokersCreate_cons_next {σ : Type} (env : Env σ) (fuel : Nat) (b : Broker)
    (rest : List Broker) (s s1 s2 s3 : St σ) (r1 : Brokers) (r2 : MutateStatus)
    (o : Outcome Unit) (hadd : ApiBrokersAdd env b s = (.ok r1, s1))
    (hstart : ApiBrokersStart env b s1 = (.ok r2, s2))
    (hreb : ApiBrokerRebalance env fuel s2 = some (o, s3)) (ho : ∀ p, o ≠ .panic p) :
    ApiBrokersCreate env fuel (b :: rest) s = ApiBrokersCreate env fuel rest s3 := by
  rw [ApiBrokersCreate_cons, hadd]
  simp only [hstart, hreb]

theorem ApiBrokersDelete_cons_next {σ : Type} (env : Env σ) (fuel : Nat) (id : Int)
    (rest : List Int) (s s1 s2 s3 : St σ) (r1 r2 : MutateStatus)
    (o : Outcome Unit) (hstop : ApiBrokersStop env id s = (.ok r1, s1))
    (hremove : ApiBrokersRemove env id s1 = (.ok r2, s2))
    (hreb : ApiBrokerRebalance env fuel s2 = some (o, s3)) (ho : ∀ p, o ≠ .panic p) :
    ApiBrokersDelete env fuel (id :: rest) s = ApiBrokersDelete env fuel rest s3 := by
  rw [ApiBrokersDelete_cons, hstop]
  simp only [hremove, hreb]

theorem ApiBrokersUpdate_cons_next {σ : Type} (env : Env σ) (fuel : Nat) (b : Broker)
    (rest : List Broker) (id : Int) (s s1 s2 s3 s4 : St σ) (r1 r2 r3 : MutateStatus)
    (o : Outcome Unit) (hparse : Atoi b.ID = .ok id)
    (hstop : ApiBrokersStop env id s = (.ok r1, s1))
    (hupdate : ApiBrokerUpdate env b s1 = (.ok r2, s2))
    (hstart : ApiBrokersStart env b s2 = (.ok r3, s3))
    (hreb : ApiBrokerRebalance env fuel s3 = some (o, s4)) (ho : ∀ p, o ≠ .panic p) :
    ApiBrokersUpdate env fuel (b :: rest) s = ApiBrokersUpdate env fuel rest s4 := by
  rw [ApiBrokersUpdate_cons, hparse]
  simp only [hstop, hupdate, hstart, hreb]

/-! ## The workflows: earlier entries -/

/-- When the entries `pre` are processed without failure, `ApiBrokersCreate`
on `pre ++ rest` carries on with `rest` from the state they leave. -/
theorem ApiBrokersCreate_append {σ : Type} (env : Env σ) (fuel : Nat) (rest : List Broker) :
    ∀ (pre : List Broker) (s0 s1 : St σ),
      ApiBrokersCreate env fuel pre s0 = some (.ok (), s1) →
      ApiBrokersCreate env fuel (pre ++ rest) s0 = ApiBrokersCreate env fuel rest s1 := by
  intro pre
  induction pre with
  | nil =>
    intro s0 s1 h
    simp only [ApiBrokersCreate, Option.some.injEq, Prod.mk.injEq, true_and] at h
    rw [List.nil_append, h]
  | cons b pre ih =>
    intro s0 s1 h
    rw [List.cons_append]
    rw [ApiBrokersCreate_cons] at h ⊢
    rcases hadd : ApiBrokersAdd env b s0 with ⟨o1, t1⟩
    rw [hadd] at h
    cases o1 with
    | panic p => simp at h
    | err e => simp at h
    | ok r1 =>
      simp only at h ⊢
      rcases hstart : ApiBrokersStart env b t1 with ⟨o2, t2⟩
      rw [hstart] at h
      cases o2 with
      | panic p => simp at h
      | err e => simp at h
      | ok r2 =>
        simp only at h ⊢
        cases hreb : ApiBrokerRebalance env fuel t2 with
        | none => rw [hreb] at h; simp at h
        | some res =>
          obtain ⟨o3, t3⟩ := res
          rw [hreb] at h
          cases o3 with
          | panic p => simp at h
          | err e => simp only at h ⊢; exact ih t3 s1 h
          | ok u => simp only at h ⊢; exact ih t3 s1 h

theorem ApiBrokersDelete_append {σ : Type} (env : Env σ) (fuel : Nat) (rest : List Int) :
    ∀ (pre : List Int) (s0 s1 : St σ),
      ApiBrokersDelete env fuel pre s0 = some (.ok (), s1) →
      ApiBrokersDelete env fuel (pre ++ rest) s0 = ApiBrokersDelete env fuel rest s1 := by
  intro pre
  induction pre with
  | nil =>
    intro s0 s1 h
    simp only [ApiBrokersDelete, Option.some.injEq, Prod.mk.injEq, true_and] at h
    rw [List.nil_append, h]
  | cons b pre ih =>
    intro s0 s1 h
    rw [List.cons_append]
    rw [ApiBrokersDelete_cons] at h ⊢
    rcases hstop : ApiBrokersStop env b s0 with ⟨o1, t1⟩
    rw [hstop] at h
    cases o1 with
    | panic p => simp at h
    | err e => simp at h
    | ok r1 =>
      simp only at h ⊢
      rcases hremove : ApiBrokersRemove env b t1 with ⟨o2, t2⟩
      rw [hremove] at h
      cases o2 with
      | panic p => simp at h
      | err e => simp at h
      | ok r2 =>
        simp only at h ⊢
        cases hreb : ApiBrokerRebalance env fuel t2 with
        | none => rw [hreb] at h; simp at h
        | some res =>
          obtain ⟨o3, t3⟩ := res
          rw [hreb] at h
          cases o3 with
          | panic p => simp at h
          | err e => simp only at h ⊢; exact ih t3 s1 h
          | ok u => simp only at h ⊢; exact ih t3 s1 h

theorem ApiBrokersUpdate_append {σ : Type} (env : Env σ) (fuel : Nat) (rest : List Broker) :
    ∀ (pre : List Broker) (s0 s1 : St σ),
      ApiBrokersUpdate env fuel pre s0 = some (.ok (), s1) →
      ApiBrokersUpdate env fuel (pre ++ rest) s0 = ApiBrokersUpdate env fuel rest s1 := by
  intro pre
  induction pre with
  | nil =>
    intro s0 s1 h
    simp only [ApiBrokersUpdate, Option.some.injEq, Prod.mk.injEq, true_and] at h
    rw [List.nil_append, h]
  | cons b pre ih =>
    intro s0 s1 h
    rw [List.cons_append]
    rw [ApiBrokersUpdate_cons] at h ⊢
    cases hparse : Atoi b.ID with
    | error e => rw [hparse] at h; simp at h
    | ok id =>
      rw [hparse] at h
      simp only at h ⊢
      rcases hstop : ApiBrokersStop env id s0 with ⟨o1, t1⟩
      rw [hstop] at h
      cases o1 with
      | panic p => simp at h
      | err e => simp at h
      | ok r1 =>
        simp only at h ⊢
        rcases hupdate : ApiBrokerUpdate env b t1 with ⟨o2, t2⟩
        rw [hupdate] at h
        cases o2 with
        | panic p => simp at h
        | err e => simp at h
        | ok r2 =>
          simp only at h ⊢
          rcases hstart : ApiBrokersStart env b t2 with ⟨o3, t3⟩
          rw [hstart] at h
          cases o3 with
          | panic p => simp at h
          | err e => simp at h
          | ok r3 =>
            simp only at h ⊢
            cases hreb : ApiBrokerRebalance env fuel t3 with
            | none => rw [hreb] at h; simp at h
            | some res =>
              obtain ⟨o4, t4⟩ := res
              rw [hreb] at h
              cases o4 with
              | panic p => simp at h
              | err e => simp only at h ⊢; exact ih t4 s1 h
              | ok u => simp only at h ⊢; exact ih t4 s1 h

/-! ## The workflows: failures -/

/-- C4. In `ApiBrokersCreate`, when the entries before a spec are processed
without failure and the add call for the spec returns an error, the workflow
returns that error and the add request is the last event: no start, no
rebalance, nothing for the later specs.  When add succeeds and start returns
an error, the workflow returns the start error and the add and start requests
are the last events. -/
theorem ApiBrokersCreate_first_failure {σ : Type} (env : Env σ) (fuel : Nat)
    (pre : List Broker) (b : Broker) (post : List Broker) (s0 s1 : St σ)
    (hpre : ApiBrokersCreate env fuel pre s0 = some (.ok (), s1)) :
    (∀ (e : GoError) (s2 : St σ), ApiBrokersAdd env b s1 = (.err e, s2) →
      ApiBrokersCreate env fuel (pre ++ b :: post) s0 = some (.err e, s2) ∧
      s2.trace = s1.trace ++ [Event.get (addEndpoint b)]) ∧
    (∀ (r : Brokers) (s2 : St σ) (e : GoError) (s3 : St σ),
      ApiBrokersAdd env b s1 = (.ok r, s2) → ApiBrokersStart env b s2 = (.err e, s3) →
      ApiBrokersCreate env fuel (pre ++ b :: post) s0 = some (.err e, s3) ∧
      s3.trace = s1.trace ++ [Event.get (addEndpoint b), Event.get (startEndpoint b)]) := by
  constructor
  · intro e s2 hadd
    refine ⟨?_, getAndDecode_trace env _ _ s1 s2 _ hadd (fun p hp => by cases hp)⟩
    rw [ApiBrokersCreate_append env fuel _ pre s0 s1 hpre, ApiBrokersCreate_cons, hadd]
  · intro r s2 e s3 hadd hstart
    constructor
    · rw [ApiBrokersCreate_append env fuel _ pre s0 s1 hpre, ApiBrokersCreate_cons, hadd]
      simp only [hstart]
    · rw [getAndDecode_trace env _ _ s2 s3 _ hstart (fun p hp => by cases hp),
        getAndDecode_trace env _ _ s1 s2 _ hadd (fun p hp => by cases hp)]
      simp

/-- C5. In `ApiBrokersDelete`, when the identifiers before one are processed
without failure and the stop call for it returns an error, the workflow
returns that error and the stop request is the last event: no remove, no
rebalance, nothing for the later identifiers. -/
theorem ApiBrokersDelete_first_failure {σ : Type} (env : Env σ) (fuel : Nat)
    (pre : List Int) (id : Int) (post : List Int) (s0 s1 s2 : St σ) (e : GoError)
    (hpre : ApiBrokersDelete env fuel pre s0 = some (.ok (), s1))
    (hstop : ApiBrokersStop env id s1 = (.err e, s2)) :
    ApiBrokersDelete env fuel (pre ++ id :: post) s0 = some (.err e, s2) ∧
      s2.trace = s1.trace ++ [Event.get (stopEndpoint id)] := by
  refine ⟨?_, getAndDecode_trace env _ _ s1 s2 _ hstop (fun p hp => by cases hp)⟩
  rw [ApiBrokersDelete_append env fuel _ pre s0 s1 hpre, ApiBrokersDelete_cons, hstop]

/-- Every error of `Atoi` is a `*strconv.NumError` with `Func` "Atoi" and the
input as `Num`. -/
theorem Atoi_error (s : GoString) (e : GoError) (h : Atoi s = .error e) :
    ∃ cause, e = .numError (str "Atoi") s cause := by
  unfold Atoi at h
  by_cases hlen : 0 < s.length ∧ s.length < 19
  · rw [if_pos hlen] at h
    cases s with
    | nil => simp at hlen
    | cons c cs =>
      simp only at h
      by_cases hsign : (c = 45 ∨ c = 43) ∧ (if c = 45 ∨ c = 43 then cs else c :: cs).length < 1
      · rw [if_pos hsign] at h
        injection h with h
        exact ⟨_, h.symm⟩
      · rw [if_neg hsign] at h
        cases hl : atoiFastLoop (if c = 45 ∨ c = 43 then cs else c :: cs) 0 with
        | none =>
          rw [hl] at h
          injection h with h
          exact ⟨_, h.symm⟩
        | some n =>
          rw [hl] at h
          cases h
  · rw [if_neg hlen] at h
    cases hp : ParseInt s with
    | ok i =>
      rw [hp] at h
      cases h
    | error c =>
      rw [hp] at h
      injection h with h
      exact ⟨_, h.symm⟩

/-- C6. In `ApiBrokersUpdate`, when the entries before a spec are processed
without failure and `strconv.Atoi` rejects the spec's identifier, the workflow
returns the error of `Atoi`, a `*strconv.NumError` for that identifier, in
the state the earlier entries left: no request is made for the spec or for
any later one. -/
theorem ApiBrokersUpdate_parse_failure {σ : Type} (env : Env σ) (fuel : Nat)
    (pre : List Broker) (b : Broker) (post : List Broker) (s0 s1 : St σ) (e : GoError)
    (hpre : ApiBrokersUpdate env fuel pre s0 = some (.ok (), s1))
    (hparse : Atoi b.ID = .error e) :
    ApiBrokersUpdate env fuel (pre ++ b :: post) s0 = some (.err e, s1) ∧
      ∃ cause, e = .numError (str "Atoi") b.ID cause := by
  constructor
  · rw [ApiBrokersUpdate_append env fuel _ pre s0 s1 hpre, ApiBrokersUpdate_cons, hparse]
  · exact Atoi_error b.ID e hparse

/-- C7. In each of the three workflows, when the calls of an entry succeed and
the rebalance call returns an error, the error is dropped: the workflow goes
on with the remaining entries from the state the rebalance left, and returns
success when the entry was the last one. -/
theorem rebalance_error_discarded {σ : Type} (env : Env σ) (fuel : Nat) :
    (∀ (b : Broker) (rest : List Broker) (s s1 s2 s3 : St σ) (r1 : Brokers)
        (r2 : MutateStatus) (e : GoError),
      ApiBrokersAdd env b s = (.ok r1, s1) → ApiBrokersStart env b s1 = (.ok r2, s2) →
      ApiBrokerRebalance env fuel s2 = some (.err e, s3) →
      ApiBrokersCreate env fuel (b :: rest) s = ApiBrokersCreate env fuel rest s3 ∧
        ApiBrokersCreate env fuel [b] s = some (.ok (), s3)) ∧
    (∀ (id : Int) (rest : List Int) (s s1 s2 s3 : St σ) (r1 r2 : MutateStatus) (e : GoError),
      ApiBrokersStop env id s = (.ok r1, s1) → ApiBrokersRemove env id s1 = (.ok r2, s2) →
      ApiBrokerRebalance env fuel s2 = some (.err e, s3) →
      ApiBrokersDelete env fuel (id :: rest) s = ApiBrokersDelete env fuel rest s3 ∧
        ApiBrokersDelete env fuel [id] s = some (.ok (), s3)) ∧
    (∀ (b : Broker) (rest : List Broker) (id : Int) (s s1 s2 s3 s4 : St σ)
        (r1 r2 r3 : MutateStatus) (e : GoError),
      Atoi b.ID = .ok id → ApiBrokersStop env id s = (.ok r1, s1) →
      ApiBrokerUpdate env b s1 = (.ok r2, s2) → ApiBrokersStart env b s2 = (.ok r3, s3) →
      ApiBrokerRebalance env fuel s3 = some (.err e, s4) →
      ApiBrokersUpdate env fuel (b :: rest) s = ApiBrokersUpdate env fuel rest s4 ∧
        ApiBrokersUpdate env fuel [b] s = some (.ok (), s4)) := by
  have hne : ∀ (e : GoError) (p : GoPanic), (Outcome.err e : Outcome Unit) ≠ .panic p :=
    fun e p hp => by cases hp
  refine ⟨?_, ?_, ?_⟩
  · intro b rest s s1 s2 s3 r1 r2 e hadd hstart hreb
    exact ⟨ApiBrokersCreate_cons_next env fuel b rest s s1 s2 s3 r1 r2 _ hadd hstart hreb (hne e),
      ApiBrokersCreate_cons_next env fuel b [] s s1 s2 s3 r1 r2 _ hadd hstart hreb (hne e)⟩
  · intro id rest s s1 s2 s3 r1 r2 e hstop hremove hreb
    exact ⟨ApiBrokersDelete_cons_next env fuel id rest s s1 s2 s3 r1 r2 _ hstop hremove hreb
        (hne e),
      ApiBrokersDelete_cons_next env fuel id [] s s1 s2 s3 r1 r2 _ hstop hremove hreb (hne e)⟩
  · intro b rest id s s1 s2 s3 s4 r1 r2 r3 e hparse hstop hupdate hstart hreb
    exact ⟨ApiBrokersUpdate_cons_next env fuel b rest id s s1 s2 s3 s4 r1 r2 r3 _ hparse hstop
        hupdate hstart hreb (hne e),
      ApiBrokersUpdate_cons_next env fuel b [] id s s1 s2 s3 s4 r1 r2 r3 _ hparse hstop
        hupdate hstart hreb (hne e)⟩

/-- A scripted run of the create workflow: three specs, the add call of the
second answered with status 500.  The run ends with that error; the last
request is the failed add, and the reply scripted behind it is never consumed. -/
theorem ApiBrokersCreate_first_failure_witness :
    ApiBrokersCreate scriptEnv 1
      [plainBroker (str "0"), plainBroker (str "1"), plainBroker (str "2")]
      ⟨[ok200 brokersBody, ok200 startedBody, ok200 startedBody, ok200 idleBody, fail500,
        ok200 brokersBody], []⟩ =
      some (.err (.errorf (addEndpoint (plainBroker (str "1")) ++
          str ": Returned HTTP status: 500 Internal Server Error \nReturned HTTP body: boom")),
        ⟨[ok200 brokersBody],
          [Event.get (addEndpoint (plainBroker (str "0"))),
           Event.get (startEndpoint (plainBroker (str "0"))),
           Event.get rebalanceEndpoint, Event.get rebalanceStatusEndpoint,
           Event.get (addEndpoint (plainBroker (str "1")))]⟩) :=
  ((ApiBrokersCreate_first_failure scriptEnv 1 [plainBroker (str "0")] (plainBroker (str "1"))
    [plainBroker (str "2")]
    ⟨[ok200 brokersBody, ok200 startedBody, ok200 startedBody, ok200 idleBody, fail500,
        ok200 brokersBody], []⟩
    ⟨[fail500, ok200 brokersBody],
      [Event.get (addEndpoint (plainBroker (str "0"))),
       Event.get (startEndpoint (plainBroker (str "0"))),
       Event.get rebalanceEndpoint, Event.get rebalanceStatusEndpoint]⟩ rfl).1 _ _ rfl).1

/-- A scripted run of the delete workflow: identifiers 1 and 2, the stop call
of 1 answered with status 500.  The only request made is the stop of 1. -/
theorem ApiBrokersDelete_first_failure_witness :
    ApiBrokersDelete scriptEnv 1 [1, 2] ⟨[fail500, ok200 startedBody, ok200 startedBody], []⟩ =
      some (.err (.errorf (str "/api/broker/stop?broker=1: Returned HTTP status: 500 Internal Server Error \nReturned HTTP body: boom")),
        ⟨[ok200 startedBody, ok200 startedBody], [Event.get (str "/api/broker/stop?broker=1")]⟩) :=
  (ApiBrokersDelete_first_failure scriptEnv 1 [] 1 [2] ⟨[fail500, ok200 startedBody, ok200 startedBody], []⟩
    ⟨[fail500, ok200 startedBody, ok200 startedBody], []⟩ _ _ rfl rfl).1

/-- Two scripted runs of the update workflow: a list whose first spec has the
identifier `abc`, and one whose first spec has the empty identifier.  Each
fails with the error of `Atoi` and makes no request, although the remote side
would have answered. -/
theorem ApiBrokersUpdate_parse_failure_witness :
    ApiBrokersUpdate scriptEnv 1 [plainBroker (str "abc"), plainBroker (str "1")]
        ⟨[ok200 startedBody, ok200 startedBody, ok200 startedBody, ok200 startedBody,
          ok200 idleBody], []⟩ =
      some (.err (.numError (str "Atoi") (str "abc") .badSyntax),
        ⟨[ok200 startedBody, ok200 startedBody, ok200 startedBody, ok200 startedBody,
          ok200 idleBody], []⟩) ∧
    ApiBrokersUpdate scriptEnv 1 [plainBroker [], plainBroker (str "1")]
        ⟨[ok200 startedBody, ok200 startedBody, ok200 startedBody, ok200 startedBody,
          ok200 idleBody], []⟩ =
      some (.err (.numError (str "Atoi") [] .badSyntax),
        ⟨[ok200 startedBody, ok200 startedBody, ok200 startedBody, ok200 startedBody,
          ok200 idleBody], []⟩) :=
  ⟨(ApiBrokersUpdate_parse_failure scriptEnv 1 [] (plainBroker (str "abc"))
      [plainBroker (str "1")] ⟨[ok200 startedBody, ok200 startedBody, ok200 startedBody, ok200 startedBody,
          ok200 idleBody], []⟩
      _ _ rfl rfl).1,
   (ApiBrokersUpdate_parse_failure scriptEnv 1 [] (plainBroker [])
      [plainBroker (str "1")] ⟨[ok200 startedBody, ok200 startedBody, ok200 startedBody, ok200 startedBody,
          ok200 idleBody], []⟩
      _ _ rfl rfl).1⟩

/-- A scripted run of the create workflow: two specs, the rebalance trigger of
the first answered with status 500.  The workflow goes on with the second
spec and returns success. -/
theorem rebalance_error_discarded_witness :
    ApiBrokersCreate scriptEnv 1 [plainBroker (str "0"), plainBroker (str "1")]
      ⟨[ok200 brokersBody, ok200 startedBody, fail500, ok200 brokersBody, ok200 startedBody,
        ok200 startedBody, ok200 idleBody], []⟩ =
      some (.ok (), ⟨[],
        [Event.get (addEndpoint (plainBroker (str "0"))),
         Event.get (startEndpoint (plainBroker (str "0"))),
         Event.get rebalanceEndpoint,
         Event.get (addEndpoint (plainBroker (str "1"))),
         Event.get (startEndpoint (plainBroker (str "1"))),
         Event.get rebalanceEndpoint, Event.get rebalanceStatusEndpoint]⟩) :=
  (((rebalance_error_discarded scriptEnv 1).1 (plainBroker (str "0")) [plainBroker (str "1")]
    ⟨[ok200 brokersBody, ok200 startedBody, fail500, ok200 brokersBody, ok200 startedBody,
        ok200 startedBody, ok200 idleBody], []⟩
    _ _ _ _ _ _ rfl rfl rfl).1).trans rfl

/-! ## The create workflow against an idle cluster -/

end Mesoskafka
